import Mathlib

/-!
Verification of the ASCII terminal video player (`h.py`): a shallow
embedding of its frame-pacing and temporal-interpolation loop
(`play_video`), its pixel-to-glyph quantization (`frame_to_ascii`) and
its linear frame blending (`interpolate_frames`), together with theorems
settling the specification's claims about them.

Conventions of the embedding:
* machine floats are modelled by exact rationals (`ℚ`);
* the OpenCV capture is modelled by a function `read : ℕ → Option α`
  giving the result of the k-th `cap.read()` call (`none` = end of
  stream / decode failure);
* the wall clock is modelled by a function `clock : ℕ → ℚ` giving the
  value of the k-th `time.time()` observation (an injectable clock);
* printing and terminal control are presentation effects; what the
  claims need of them (which frames are rendered, which error or
  summary message path is taken) is recorded in the result values.
-/

namespace AsciiPlayer

/-- A decoded frame for the pixel-level claims: a flat list of pixel
intensities in exact (rational) arithmetic. -/
abbrev Frame : Type := List ℚ

/-- `cv2.addWeighted(src1, alpha, src2, beta, gamma)` in exact
arithmetic: per-pixel `a * alpha + b * beta + gamma`.  `h.py` line 27
uses it for the linear interpolation of two frames. -/
def addWeighted (f1 : Frame) (alpha : ℚ) (f2 : Frame) (beta : ℚ) (gamma : ℚ) : Frame :=
  List.zipWith (fun a b => a * alpha + b * beta + gamma) f1 f2

/-- The null-handling shell of `interpolate_frames` (`h.py` lines 23-27),
generalized over the frame payload: if either argument is null, return
`frame1` when it is non-null and otherwise `frame2`; when both are
present, blend them.  The scheduler is verified polymorphically in the
frame payload, `blend` standing for the `cv2.addWeighted` cross-fade. -/
def interpolateWith {α : Type} (blend : α → α → ℚ → α) :
    Option α → Option α → ℚ → Option α
  | none, f2, _ => f2
  | some f1, none, _ => some f1
  | some f1, some f2, k => some (blend f1 f2 k)

/-- `interpolate_frames(frame1, frame2, factor)` (`h.py` lines 11-27) at
the pixel level: `cv2.addWeighted(frame1, 1 - factor, frame2, factor, 0)`
on non-null frames, with the null handling of lines 23-24. -/
def interpolate_frames (f1 f2 : Option Frame) (factor : ℚ) : Option Frame :=
  interpolateWith (fun a b k => addWeighted a (1 - k) b k 0) f1 f2 factor

/-- The character ramp of `frame_to_ascii` (`h.py` line 55):
`chars = "    :;;##"`. -/
def asciiChars : List Char := "    :;;##".toList

/-- The ramp index chosen for a pixel intensity:
`min(pixel // 25, char_length - 1)` (`h.py` line 60). -/
def pixelCharIndex (p : ℕ) : ℕ := min (p / 25) (asciiChars.length - 1)

/-- The glyph chosen for a pixel intensity:
`chars[min(pixel // 25, char_length - 1)]` (`h.py` line 60). -/
def pixelChar (p : ℕ) : Char := asciiChars.getD (pixelCharIndex p) ' '

/-- `frame_to_ascii` restricted to the luminance-to-glyph mapping it
applies to the resized pixel list (`h.py` lines 58-60).  Grayscale
conversion, resizing and the width-chunked line splitting are
presentation plumbing around this per-pixel map and are external to the
claims. -/
def frame_to_ascii (pixels : List ℕ) : List Char := pixels.map pixelChar

/-- Modelled from the spec: the claim's "nearest-bucket quantization of
p/25 over a fixed character ramp of exactly 10 density levels" — the
bucket nearest to `p / 25`, clamped to the last of ten levels (indices
0 through 9).  Declared only to be compared against `pixelCharIndex`,
which is what the code computes. -/
def specNearestBucketIndex (p : ℕ) : ℕ := min (round ((p : ℚ) / 25)).toNat 9

/-- The in-between interpolation factor
`(frame_index % interpolation_factor) / interpolation_factor`
(`h.py` line 133), in exact arithmetic. -/
def interpFactor (i m : ℕ) : ℚ := ((i % m : ℕ) : ℚ) / (m : ℚ)

/-- Python `int()` applied to a nonnegative or negative rational:
truncation toward zero. -/
def pyInt (q : ℚ) : ℤ := if 0 ≤ q then ⌊q⌋ else ⌈q⌉

/-- The inputs and compiled-in parameters of one `play_video` run,
polymorphic in the frame payload `α`. -/
structure PlayCfg (α : Type) where
  blend : α → α → ℚ → α
  read : ℕ → Option α
  clock : ℕ → ℚ
  originalFps : ℚ
  multiplier : ℕ
  maxDuration : ℚ
  frameCount : ℕ

/-- `fps = original_fps * interpolation_factor` (`h.py` line 88). -/
def PlayCfg.fps {α : Type} (cfg : PlayCfg α) : ℚ :=
  cfg.originalFps * (cfg.multiplier : ℚ)

/-- `frame_delay = 1 / fps` (`h.py` line 91): one virtual-frame
period. -/
def PlayCfg.frameDelay {α : Type} (cfg : PlayCfg α) : ℚ := 1 / cfg.fps

/-- `max_frames = int(fps * max_duration) if max_duration else
frame_count` (`h.py` line 94). -/
def PlayCfg.maxFrames {α : Type} (cfg : PlayCfg α) : ℕ :=
  if cfg.maxDuration ≠ 0 then (pyInt (cfg.fps * cfg.maxDuration)).toNat
  else cfg.frameCount

/-- The mutable state of the playback loop: the virtual frame index, the
two buffered source frames, the genuine-frame counter, and how many
`cap.read()` and `time.time()` calls have happened so far. -/
structure PlayState (α : Type) where
  frameIndex : ℕ
  prevFrame : Option α
  currentFrame : Option α
  originalFrameIndex : ℕ
  readPos : ℕ
  clockPos : ℕ
deriving DecidableEq

/-- What one loop iteration did: the successor state, the frame rendered
(virtual index paired with the possibly-null display frame), the pacing
sleep issued, whether the iteration skipped its frame as unrecoverably
late, and whether it broke out on end-of-stream. -/
structure IterResult (α : Type) where
  next : PlayState α
  displayed : Option (ℕ × Option α)
  slept : Option ℚ
  skipped : Bool
  broke : Bool
deriving DecidableEq

/-- Lines 138-173 of `h.py`: compute `target_time` for the current
virtual index, skip the frame (no render, no sleep) when the observed
time is already more than one `frame_delay` past it, and otherwise
render it and sleep `max(0, target_time - now)` — issuing the sleep
only when that amount is positive. -/
def pace {α : Type} (cfg : PlayCfg α) (start : ℚ) (s : PlayState α)
    (display : Option α) : IterResult α :=
  let target := start + (s.frameIndex : ℚ) / cfg.fps
  let now := cfg.clock s.clockPos
  if now > target + cfg.frameDelay then
    { next := { s with frameIndex := s.frameIndex + 1, clockPos := s.clockPos + 1 },
      displayed := none, slept := none, skipped := true, broke := false }
  else
    let now2 := cfg.clock (s.clockPos + 1)
    let sleepTime := max 0 (target - now2)
    { next := { s with frameIndex := s.frameIndex + 1, clockPos := s.clockPos + 2 },
      displayed := some (s.frameIndex, display),
      slept := if 0 < sleepTime then some sleepTime else none,
      skipped := false, broke := false }

/-- One iteration of the playback loop body (`h.py` lines 119-173).  At
a genuine index (`frame_index % interpolation_factor == 0`) the old
`current_frame` is promoted to `prev_frame` (when non-null) and a new
frame is decoded — a failed decode breaks out of the loop; at an
in-between index the display frame is the blend of the two buffered
frames at `interpFactor`.  The rendered frame at a genuine index is the
newly decoded `current_frame` (`h.py` line 152). -/
def iterate {α : Type} (cfg : PlayCfg α) (start : ℚ) (s : PlayState α) :
    IterResult α :=
  if s.frameIndex % cfg.multiplier = 0 then
    let prev' := match s.currentFrame with
      | some c => some c
      | none => s.prevFrame
    match cfg.read s.readPos with
    | none =>
        { next := { s with prevFrame := prev', currentFrame := none,
                           readPos := s.readPos + 1 },
          displayed := none, slept := none, skipped := false, broke := true }
    | some fr =>
        pace cfg start
          { s with prevFrame := prev', currentFrame := some fr,
                   readPos := s.readPos + 1,
                   originalFrameIndex := s.originalFrameIndex + 1 }
          (some fr)
  else
    pace cfg start s
      (interpolateWith cfg.blend s.prevFrame s.currentFrame
        (interpFactor s.frameIndex cfg.multiplier))

/-- Why the playback loop stopped: `maxReached` is the `while` guard
`frame_index < max_frames` turning false, `eos` is the `break` on a
failed decode, and `fuelOut` marks exhaustion of the step budget of the
embedding (never reached from `play_video`, which supplies a budget of
`max_frames` steps). -/
inductive EndReason where
  | fuelOut
  | maxReached
  | eos
deriving DecidableEq

/-- The observable outcome of running the playback loop: the entry
states of the iterations executed, the rendered frames (virtual index
with display frame), the sleeps issued, the virtual indices skipped as
late, the final state and why the loop stopped. -/
structure RunResult (α : Type) where
  trace : List (PlayState α)
  displays : List (ℕ × Option α)
  sleeps : List ℚ
  skips : List ℕ
  final : PlayState α
  ended : EndReason
deriving DecidableEq

/-- The playback loop (`h.py` lines 119-173) as a fuel-indexed
recursion: while `frame_index < max_frames`, run one iteration; a broken
iteration ends the run with `eos`. -/
def runLoop {α : Type} (cfg : PlayCfg α) (start : ℚ) :
    ℕ → PlayState α → RunResult α
  | 0, s =>
    if s.frameIndex < cfg.maxFrames then ⟨[], [], [], [], s, .fuelOut⟩
    else ⟨[], [], [], [], s, .maxReached⟩
  | fuel + 1, s =>
    if s.frameIndex < cfg.maxFrames then
      let r := iterate cfg start s
      if r.broke then ⟨[s], [], [], [], r.next, .eos⟩
      else
        let rest := runLoop cfg start fuel r.next
        { trace := s :: rest.trace
          displays := match r.displayed with
            | some d => d :: rest.displays
            | none => rest.displays
          sleeps := match r.slept with
            | some t => t :: rest.sleeps
            | none => rest.sleeps
          skips := if r.skipped then s.frameIndex :: rest.skips else rest.skips
          final := rest.final
          ended := rest.ended }
    else ⟨[], [], [], [], s, .maxReached⟩

/-- The state entering the first loop iteration (`h.py` lines 104-117):
the first decoded frame sits in `prev_frame`, `current_frame` is null,
one `cap.read()` and one `time.time()` (the `start_time` observation)
have happened. -/
def initState {α : Type} (f0 : α) : PlayState α :=
  { frameIndex := 0, prevFrame := some f0, currentFrame := none,
    originalFrameIndex := 0, readPos := 1, clockPos := 1 }

/-- The outcome of `play_video`: `openError` is the printed
could-not-open message and early return (`h.py` lines 78-80),
`firstFrameError` the printed could-not-read-first-frame message and
early return (lines 109-111), and `completed` the normal path on which
the loop runs and the summary statistics (frames played) are printed
(lines 175-183). -/
inductive PlayOutcome (α : Type) where
  | openError : PlayOutcome α
  | firstFrameError : PlayOutcome α
  | completed : RunResult α → ℕ → PlayOutcome α
deriving DecidableEq

/-- `play_video` (`h.py` lines 67-189).  `opened` stands for
`cap.isOpened()`; `start_time` is the first clock observation
(`clock 0`); the loop gets a step budget equal to `max_frames`, which
suffices because every iteration that does not break advances
`frame_index` by one. -/
def play_video {α : Type} (cfg : PlayCfg α) (opened : Bool) : PlayOutcome α :=
  if opened = false then .openError
  else
    match cfg.read 0 with
    | none => .firstFrameError
    | some f0 =>
        let res := runLoop cfg (cfg.clock 0) cfg.maxFrames (initState f0)
        .completed res res.final.frameIndex

/-- Whether the outcome is the normal completion path (the summary
statistics are printed rather than an error message). -/
def PlayOutcome.isCompleted {α : Type} : PlayOutcome α → Bool
  | .completed _ _ => true
  | _ => false

/-- The loop result carried by a completed outcome. -/
def PlayOutcome.runOf {α : Type} : PlayOutcome α → Option (RunResult α)
  | .completed r _ => some r
  | _ => none

/-- Source-time interpretation of blending used by the temporal-order
claim: a frame standing for source time `t1` blended at factor `k` with
a frame standing for source time `t2` stands for source time
`t1 * (1 - k) + t2 * k`, exactly mirroring the per-pixel weights of
`interpolate_frames`. -/
def timeBlend (t1 t2 k : ℚ) : ℚ := t1 * (1 - k) + t2 * k

/-- A frame source yielding exactly `n` frames, frame `k` carrying its
own source index. -/
def idxRead (n : ℕ) (k : ℕ) : Option ℕ := if k < n then some k else none

/-- A frame source yielding exactly `n` frames, frame `k` carrying its
source time `k` (in units of the original frame period). -/
def timeRead (n : ℕ) (k : ℕ) : Option ℚ := if k < n then some (k : ℚ) else none

/-- A constant injectable clock: every `time.time()` observation returns
`t`; under it playback is never late. -/
def constClock (t : ℚ) : ℕ → ℚ := fun _ => t

/-- A two-frame video (source times 0 and 1) played at multiplier 2 under
a never-late clock, with frames interpreted by the source time they
stand for. -/
def c1Cfg : PlayCfg ℚ :=
  { blend := timeBlend, read := timeRead 2, clock := constClock 0,
    originalFps := 10, multiplier := 2, maxDuration := 1, frameCount := 2 }

/-- The loop run `play_video` performs on `c1Cfg`. -/
def c1run : RunResult ℚ :=
  runLoop c1Cfg (c1Cfg.clock 0) c1Cfg.maxFrames (initState 0)

/-- A one-frame video played at multiplier 2 under a never-late clock,
frames carrying their source index. -/
def c3Cfg : PlayCfg ℕ :=
  { blend := fun a _ _ => a, read := idxRead 1, clock := constClock 0,
    originalFps := 10, multiplier := 2, maxDuration := 1, frameCount := 1 }

/-- The loop run `play_video` performs on `c3Cfg`. -/
def c3run : RunResult ℕ :=
  runLoop c3Cfg (c3Cfg.clock 0) c3Cfg.maxFrames (initState 0)

/-- An eleven-frame video played with `fps=10`, `m=2`, `maxDuration=1`
under a never-late clock: enough source frames that the duration cap,
not stream exhaustion, ends playback. -/
def c5Cfg : PlayCfg ℕ :=
  { blend := fun a _ _ => a, read := idxRead 11, clock := constClock 0,
    originalFps := 10, multiplier := 2, maxDuration := 1, frameCount := 11 }

/-- The loop run `play_video` performs on `c5Cfg`. -/
def c5run : RunResult ℕ :=
  runLoop c5Cfg (c5Cfg.clock 0) c5Cfg.maxFrames (initState 0)

/-- A source whose very first decode fails. -/
def c6EmptyCfg : PlayCfg ℕ :=
  { blend := fun a _ _ => a, read := fun _ => none, clock := constClock 0,
    originalFps := 10, multiplier := 2, maxDuration := 1, frameCount := 0 }

/-- A configuration whose clock always reads 100: with `start = 0` every
virtual frame is unrecoverably late. -/
def c4LateCfg : PlayCfg ℕ :=
  { blend := fun a _ _ => a, read := idxRead 11, clock := constClock 100,
    originalFps := 10, multiplier := 2, maxDuration := 1, frameCount := 11 }

/-- A mid-playback loop state at the in-between virtual index 1. -/
def c4St : PlayState ℕ :=
  { frameIndex := 1, prevFrame := some 0, currentFrame := some 1,
    originalFrameIndex := 1, readPos := 2, clockPos := 5 }

/-- Frame-ordering invariant for the index-carrying instantiation of the
playback loop: every buffered frame was produced by a decode that has
already happened, and `currentFrame` is exactly the most recently decoded
frame. -/
def FrameOrderInv (s : PlayState ℕ) : Prop :=
  (∀ p : ℕ, s.prevFrame = some p → p < s.readPos) ∧
  (∀ c : ℕ, s.currentFrame = some c → c + 1 = s.readPos)

/-- The loop state entering virtual index 1 of the `c5Cfg` run. -/
def c9St : PlayState ℕ :=
  { frameIndex := 1, prevFrame := some 0, currentFrame := some 1,
    originalFrameIndex := 1, readPos := 2, clockPos := 3 }

/-- Claim C1 (code bug, evaluated at the failing input): on a two-frame
source with multiplier 2 and a never-late clock, the loop renders at
virtual index 0 the newly decoded second frame (source time 1) and at
virtual index 1 the blend of the two source frames at factor 1/2 (source
time 1/2): the source times of the displayed frames are not in
non-decreasing order of virtual index. -/
theorem playback_out_of_order :
    c1run.displays = [(0, some 1), (1, some (1 / 2 : ℚ))] ∧
    c1run.ended = EndReason.eos ∧
    ¬ List.Sorted (fun a b : ℚ => a ≤ b)
        (c1run.displays.map (fun d => d.2.getD 0)) := by
  with_unfolding_all decide

/-- Claim C3 (counterexample to the claim as stated): with a source that
yields exactly one frame, the loop schedules virtual index 0 but the
second decode attempt fails there and the loop breaks before rendering
anything, so the sole frame is displayed at no virtual index at all. -/
theorem one_frame_displays_nothing :
    c3run.trace.map PlayState.frameIndex = [0] ∧ c3run.displays = [] := by
  with_unfolding_all decide

/-- Claim C3 (amended): with a source that yields exactly one frame,
`play_video` terminates normally without error — the second decode
attempt (the loop's first, after the pre-loop read) reports
end-of-stream, the loop breaks, no frame is displayed, and the summary
path is taken with zero frames played. -/
theorem one_frame_terminates_normally :
    play_video c3Cfg true = PlayOutcome.completed c3run 0 ∧
    c3run.ended = EndReason.eos ∧ c3run.displays = [] ∧
    c3run.final.readPos = 2 := by
  with_unfolding_all decide

/-- Claim C2 (counterexample to the claim as stated): the character ramp
of `frame_to_ascii` has 9 density levels, not 10, and the selection is
floor quantization, not nearest-bucket: at intensity 24 the code picks
ramp index 0 while the nearest bucket of 24/25 is 1. -/
theorem ramp_not_ten_levels_nor_nearest :
    asciiChars.length = 9 ∧ asciiChars.length ≠ 10 ∧
    pixelCharIndex 24 = 0 ∧ specNearestBucketIndex 24 = 1 := by
  with_unfolding_all decide

/-- Claim C2 (amended): `frame_to_ascii` selects the output glyph by
clamped floor quantization of `p // 25` — index `p / 25` for `p < 225`
and the last index 8 for `p ≥ 225` — over a fixed character ramp of
exactly 9 density levels. -/
theorem glyph_floor_quantization :
    ∀ p : ℕ, (p < 225 → pixelCharIndex p = p / 25) ∧
      (225 ≤ p → pixelCharIndex p = 8) ∧ asciiChars.length = 9 := by
  intro p
  have hlen : asciiChars.length = 9 := by decide
  refine ⟨?_, ?_, hlen⟩
  · intro hp
    have h9 : p / 25 < 9 := Nat.div_lt_of_lt_mul (by omega)
    unfold pixelCharIndex
    rw [hlen]
    omega
  · intro hp
    have h9 : 9 ≤ p / 25 := (Nat.le_div_iff_mul_le (by norm_num)).2 (by omega)
    unfold pixelCharIndex
    rw [hlen]
    omega

/-- Witness for the amended C2 at concrete intensities. -/
theorem glyph_floor_quantization_witness :
    pixelCharIndex 30 = 30 / 25 ∧ pixelCharIndex 250 = 8 :=
  ⟨(glyph_floor_quantization 30).1 (by norm_num),
   (glyph_floor_quantization 250).2.1 (by norm_num)⟩

/-- Claim C10: for every intensity up to 255 the computed ramp index is
a valid index into the 9-character ramp, and every intensity of 200 or
more — where `p // 25` reaches 8, 9 or 10 — is clamped to the final,
darkest glyph. -/
theorem ramp_index_in_bounds :
    ∀ p : ℕ, p ≤ 255 →
      pixelCharIndex p < asciiChars.length ∧
      (200 ≤ p → pixelCharIndex p = asciiChars.length - 1 ∧
        pixelChar p = '#' ∧ 8 ≤ p / 25 ∧ p / 25 ≤ 10) := by
  intro p hp
  have hlen : asciiChars.length = 9 := by decide
  constructor
  · unfold pixelCharIndex
    rw [hlen]
    omega
  · intro h200
    have h8 : 8 ≤ p / 25 := (Nat.le_div_iff_mul_le (by norm_num)).2 (by omega)
    have h11 : p / 25 < 11 := Nat.div_lt_of_lt_mul (by omega)
    have hidx : pixelCharIndex p = 8 := by
      unfold pixelCharIndex
      rw [hlen]
      omega
    refine ⟨by rw [hidx, hlen], ?_, h8, by omega⟩
    unfold pixelChar
    rw [hidx]
    decide

/-- Witness for C10 at intensity 255. -/
theorem ramp_index_in_bounds_witness :
    pixelCharIndex 255 < asciiChars.length ∧ pixelChar 255 = '#' :=
  ⟨(ramp_index_in_bounds 255 (le_refl 255)).1,
   ((ramp_index_in_bounds 255 (le_refl 255)).2 (by norm_num)).2.1⟩

/-- Claim C7: for every multiplier of at least 1 and every virtual index
at which an in-between frame is synthesized (`i % m ≠ 0`), the computed
interpolation factor `(i % m) / m` lies in `[0, 1)`. -/
theorem interp_factor_unit_interval :
    ∀ i m : ℕ, 1 ≤ m → i % m ≠ 0 →
      0 ≤ interpFactor i m ∧ interpFactor i m < 1 := by
  intro i m hm _
  have hm0 : (0 : ℚ) < (m : ℚ) := by exact_mod_cast hm
  constructor
  · exact div_nonneg (Nat.cast_nonneg _) hm0.le
  · rw [interpFactor, div_lt_one hm0]
    exact_mod_cast Nat.mod_lt i (by omega)

/-- Witness for C7 at `i = 3`, `m = 2`. -/
theorem interp_factor_unit_interval_witness :
    0 ≤ interpFactor 3 2 ∧ interpFactor 3 2 < 1 :=
  interp_factor_unit_interval 3 2 (by norm_num) (by norm_num)

/-- Claim C8: blending a non-null frame with itself at any factor in
`[0, 1]` returns that same frame, since in exact arithmetic the weighted
sum `a * (1 - f) + a * f + 0` equals `a` pixelwise. -/
theorem blend_self_identity :
    ∀ (F : Frame) (f : ℚ), 0 ≤ f → f ≤ 1 →
      interpolate_frames (some F) (some F) f = some F := by
  intro F f _ _
  simp only [interpolate_frames, interpolateWith, Option.some.injEq]
  unfold addWeighted
  induction F with
  | nil => rfl
  | cons a t ih =>
      simp only [List.zipWith_cons_cons, List.cons.injEq]
      exact ⟨by ring, ih⟩

/-- Witness for C8 on a concrete one-pixel frame at factor 1/2. -/
theorem blend_self_identity_witness :
    (0 : ℚ) ≤ 1 / 2 ∧
    interpolate_frames (some [(3 : ℚ)]) (some [3]) (1 / 2) = some [3] :=
  ⟨by norm_num, blend_self_identity [3] (1 / 2) (by norm_num) (by norm_num)⟩

/-- Whatever `pace` decides about lateness, it advances the virtual
index by exactly one, never breaks, and leaves the frame buffers and
read position untouched. -/
theorem pace_next_fields {α : Type} (cfg : PlayCfg α) (start : ℚ)
    (s : PlayState α) (disp : Option α) :
    (pace cfg start s disp).next.frameIndex = s.frameIndex + 1 ∧
    (pace cfg start s disp).next.prevFrame = s.prevFrame ∧
    (pace cfg start s disp).next.currentFrame = s.currentFrame ∧
    (pace cfg start s disp).next.readPos = s.readPos ∧
    (pace cfg start s disp).broke = false := by
  simp only [pace]
  split
  · exact ⟨rfl, rfl, rfl, rfl, rfl⟩
  · exact ⟨rfl, rfl, rfl, rfl, rfl⟩

/-- When the first clock observation of an iteration is more than one
frame period past the target, `pace` renders nothing, sleeps nothing,
marks the frame skipped and advances the index. -/
theorem pace_late {α : Type} (cfg : PlayCfg α) (start : ℚ) (s : PlayState α)
    (disp : Option α)
    (h : start + (s.frameIndex : ℚ) / cfg.fps + cfg.frameDelay <
      cfg.clock s.clockPos) :
    (pace cfg start s disp).displayed = none ∧
    (pace cfg start s disp).slept = none ∧
    (pace cfg start s disp).skipped = true ∧
    (pace cfg start s disp).next.frameIndex = s.frameIndex + 1 := by
  simp only [pace]
  split
  · exact ⟨rfl, rfl, rfl, rfl⟩
  · next hc => exact absurd h hc

/-- Any sleep `pace` issues equals `max 0 (target - now)` for the second
clock observation of the iteration, and is therefore nonnegative. -/
theorem pace_slept {α : Type} (cfg : PlayCfg α) (start : ℚ) (s : PlayState α)
    (disp : Option α) (d : ℚ)
    (h : (pace cfg start s disp).slept = some d) :
    d = max 0 (start + (s.frameIndex : ℚ) / cfg.fps -
      cfg.clock (s.clockPos + 1)) ∧ 0 ≤ d := by
  simp only [pace] at h
  split at h
  · exact absurd h (by simp)
  · split at h
    · have hd := Option.some.inj h
      exact ⟨hd.symm, hd ▸ le_max_left 0 _⟩
    · exact absurd h (by simp)

/-- At a genuine index whose decode fails, the iteration breaks with the
frame buffers promoted and the current frame nulled. -/
theorem iterate_eos {α : Type} (cfg : PlayCfg α) (start : ℚ) (s : PlayState α)
    (hmod : s.frameIndex % cfg.multiplier = 0)
    (hr : cfg.read s.readPos = none) :
    iterate cfg start s =
      { next := { s with
          prevFrame := match s.currentFrame with
            | some c => some c
            | none => s.prevFrame,
          currentFrame := none, readPos := s.readPos + 1 },
        displayed := none, slept := none, skipped := false, broke := true } := by
  unfold iterate
  rw [if_pos hmod, hr]

/-- At a genuine index whose decode succeeds, the iteration paces the
newly decoded frame from the promoted state. -/
theorem iterate_genuine {α : Type} (cfg : PlayCfg α) (start : ℚ)
    (s : PlayState α) (hmod : s.frameIndex % cfg.multiplier = 0) (fr : α)
    (hr : cfg.read s.readPos = some fr) :
    iterate cfg start s =
      pace cfg start
        { s with
          prevFrame := match s.currentFrame with
            | some c => some c
            | none => s.prevFrame,
          currentFrame := some fr, readPos := s.readPos + 1,
          originalFrameIndex := s.originalFrameIndex + 1 }
        (some fr) := by
  unfold iterate
  rw [if_pos hmod, hr]

/-- At an in-between index the iteration paces the interpolated blend of
the two buffered frames. -/
theorem iterate_interp {α : Type} (cfg : PlayCfg α) (start : ℚ)
    (s : PlayState α) (hmod : ¬ s.frameIndex % cfg.multiplier = 0) :
    iterate cfg start s =
      pace cfg start s
        (interpolateWith cfg.blend s.prevFrame s.currentFrame
          (interpFactor s.frameIndex cfg.multiplier)) := by
  unfold iterate
  rw [if_neg hmod]

/-- Every iteration that does not break advances the virtual index by
exactly one. -/
theorem iterate_next_frameIndex {α : Type} (cfg : PlayCfg α) (start : ℚ)
    (s : PlayState α) (h : (iterate cfg start s).broke = false) :
    (iterate cfg start s).next.frameIndex = s.frameIndex + 1 := by
  by_cases hmod : s.frameIndex % cfg.multiplier = 0
  · cases hr : cfg.read s.readPos with
    | none =>
        rw [iterate_eos cfg start s hmod hr] at h
        simp at h
    | some fr =>
        rw [iterate_genuine cfg start s hmod fr hr]
        exact (pace_next_fields cfg start _ (some fr)).1
  · rw [iterate_interp cfg start s hmod]
    exact (pace_next_fields cfg start s _).1

/-- The loop executes at most `fuel` iterations. -/
theorem runLoop_trace_length {α : Type} (cfg : PlayCfg α) (start : ℚ) :
    ∀ (fuel : ℕ) (s : PlayState α),
      (runLoop cfg start fuel s).trace.length ≤ fuel := by
  intro fuel
  induction fuel with
  | zero =>
      intro s
      unfold runLoop
      split <;> simp
  | succ k ih =>
      intro s
      simp only [runLoop]
      split
      · split
        · simp
        · simpa using Nat.succ_le_succ (ih _)
      · simp

/-- Given a step budget that covers the remaining distance to
`max_frames`, the loop never runs out of budget: it stops by reaching
`max_frames` or by end-of-stream. -/
theorem runLoop_ended_not_fuelOut {α : Type} (cfg : PlayCfg α) (start : ℚ) :
    ∀ (fuel : ℕ) (s : PlayState α), cfg.maxFrames ≤ s.frameIndex + fuel →
      (runLoop cfg start fuel s).ended ≠ EndReason.fuelOut := by
  intro fuel
  induction fuel with
  | zero =>
      intro s h
      unfold runLoop
      rw [if_neg (by omega)]
      simp
  | succ k ih =>
      intro s h
      simp only [runLoop]
      split
      · split
        · simp
        · next hb =>
            have hb' : (iterate cfg start s).broke = false := by simpa using hb
            have hfi := iterate_next_frameIndex cfg start s hb'
            exact ih _ (by rw [hfi]; omega)
      · simp

/-- Python `int()` agrees with the floor on nonnegative arguments. -/
theorem pyInt_of_nonneg (q : ℚ) (h : 0 ≤ q) : pyInt q = ⌊q⌋ := by
  unfold pyInt
  rw [if_pos h]

/-- Under positive frame rate, multiplier and duration cap, `max_frames`
is the floor of `multiplier * fps * maxDuration`. -/
theorem maxFrames_eq_floor {α : Type} (cfg : PlayCfg α)
    (hfps : 0 < cfg.originalFps) (hm : 1 ≤ cfg.multiplier)
    (hdur : 0 < cfg.maxDuration) :
    cfg.maxFrames =
      (⌊(cfg.multiplier : ℚ) * cfg.originalFps * cfg.maxDuration⌋).toNat := by
  have hmq : (0 : ℚ) < (cfg.multiplier : ℚ) := by exact_mod_cast hm
  unfold PlayCfg.maxFrames PlayCfg.fps
  rw [if_pos (ne_of_gt hdur)]
  rw [pyInt_of_nonneg _ (le_of_lt (mul_pos (mul_pos hfps hmq) hdur))]
  congr 2
  ring

/-- Claim C5: for positive frame rate, multiplier at least 1 and a
positive duration cap, the playback loop runs at most
`floor(m * fps * maxDuration)` iterations and terminates (it never
exhausts its step budget); and concretely, with `fps = 10`, `m = 2`,
`maxDuration = 1` and a source of 11 frames (not exhausted earlier),
exactly the 20 virtual indices 0 through 19 are scheduled. -/
theorem playback_loop_bounded :
    (∀ (α : Type) (cfg : PlayCfg α) (opened : Bool) (run : RunResult α)
        (n : ℕ),
        0 < cfg.originalFps → 1 ≤ cfg.multiplier → 0 < cfg.maxDuration →
        play_video cfg opened = PlayOutcome.completed run n →
        run.trace.length ≤
          (⌊(cfg.multiplier : ℚ) * cfg.originalFps * cfg.maxDuration⌋).toNat ∧
        run.ended ≠ EndReason.fuelOut) ∧
    (play_video c5Cfg true).runOf.map
        (fun r => r.trace.map PlayState.frameIndex) =
      some (List.range 20) := by
  constructor
  · intro α cfg opened run n hfps hm hdur hplay
    unfold play_video at hplay
    split at hplay
    · exact absurd hplay (by simp)
    · cases hr : cfg.read 0 with
      | none =>
          rw [hr] at hplay
          exact absurd hplay (by simp)
      | some f0 =>
          rw [hr] at hplay
          injection hplay with h1 h2
          rw [← h1, ← maxFrames_eq_floor cfg hfps hm hdur]
          refine ⟨runLoop_trace_length cfg _ _ _, ?_⟩
          refine runLoop_ended_not_fuelOut cfg _ _ _ ?_

          show cfg.maxFrames ≤ (initState f0).frameIndex + cfg.maxFrames
          omega
  · with_unfolding_all decide

/-- Witness for C5 on the concrete eleven-frame configuration. -/
theorem playback_loop_bounded_witness :
    c5run.trace.length ≤ (⌊((2 : ℕ) : ℚ) * 10 * 1⌋).toNat ∧
    c5run.ended ≠ EndReason.fuelOut :=
  playback_loop_bounded.1 ℕ c5Cfg true c5run 20 (by norm_num [c5Cfg])
    (by norm_num [c5Cfg]) (by norm_num [c5Cfg]) (by with_unfolding_all decide)

/-- Claim C4: in every iteration, if the wall-clock time observed after
producing the frame for virtual index `i` exceeds
`target + frameDelay` (with `target = start + i / (m * fps)` and
`frameDelay` one virtual-frame period), the frame is not rendered and
`i` is advanced without sleeping; and any sleep the loop issues equals
`max 0 (target - now)` and hence is never negative. -/
theorem late_skip_and_nonnegative_sleep :
    ∀ (α : Type) (cfg : PlayCfg α) (start : ℚ) (s : PlayState α),
      ((iterate cfg start s).broke = false →
        start + (s.frameIndex : ℚ) / cfg.fps + cfg.frameDelay <
          cfg.clock s.clockPos →
        (iterate cfg start s).displayed = none ∧
        (iterate cfg start s).slept = none ∧
        (iterate cfg start s).skipped = true ∧
        (iterate cfg start s).next.frameIndex = s.frameIndex + 1) ∧
      (∀ d : ℚ, (iterate cfg start s).slept = some d →
        d = max 0 (start + (s.frameIndex : ℚ) / cfg.fps -
          cfg.clock (s.clockPos + 1)) ∧ 0 ≤ d) := by
  intro α cfg start s
  by_cases hmod : s.frameIndex % cfg.multiplier = 0
  · cases hr : cfg.read s.readPos with
    | none =>
        rw [iterate_eos cfg start s hmod hr]
        constructor
        · intro hb
          exact absurd hb (by simp)
        · intro d hd
          exact absurd hd (by simp)
    | some fr =>
        rw [iterate_genuine cfg start s hmod fr hr]
        constructor
        · intro _ hl
          exact pace_late cfg start _ (some fr) hl
        · intro d hd
          exact pace_slept cfg start
            { s with
              prevFrame := match s.currentFrame with
                | some c => some c
                | none => s.prevFrame,
              currentFrame := some fr, readPos := s.readPos + 1,
              originalFrameIndex := s.originalFrameIndex + 1 }
            (some fr) d hd
  · rw [iterate_interp cfg start s hmod]
    constructor
    · intro _ hl
      exact pace_late cfg start s _ hl
    · intro d hd
      exact pace_slept cfg start s _ d hd

/-- Witness for C4: under the always-100 clock the in-between frame at
virtual index 1 is skipped, and under the constant-0 clock with start
time 1 the issued sleep of 21/20 is nonnegative. -/
theorem late_skip_and_nonnegative_sleep_witness :
    (iterate c4LateCfg 0 c4St).skipped = true ∧ (0 : ℚ) ≤ 21 / 20 :=
  ⟨((late_skip_and_nonnegative_sleep ℕ c4LateCfg 0 c4St).1
      (by with_unfolding_all decide) (by with_unfolding_all decide)).2.2.1,
   ((late_skip_and_nonnegative_sleep ℕ c5Cfg 1 c4St).2 (21 / 20)
      (by with_unfolding_all decide)).2⟩

/-- Claim C6: a decode failure on the very first frame makes
`play_video` print an error and return without attempting playback;
once the first frame is decoded the summary path is always taken, and a
decode failure at a later genuine index merely breaks the loop
(end-of-stream) without rendering or sleeping, ending the run with
`eos` rather than an error. -/
theorem decode_failure_semantics :
    ∀ (α : Type) (cfg : PlayCfg α) (start : ℚ) (s : PlayState α) (fuel : ℕ),
      (cfg.read 0 = none → play_video cfg true = PlayOutcome.firstFrameError) ∧
      (∀ f0 : α, cfg.read 0 = some f0 →
        (play_video cfg true).isCompleted = true) ∧
      (s.frameIndex % cfg.multiplier = 0 → cfg.read s.readPos = none →
        (iterate cfg start s).broke = true ∧
        (iterate cfg start s).displayed = none ∧
        (iterate cfg start s).slept = none) ∧
      (s.frameIndex < cfg.maxFrames → s.frameIndex % cfg.multiplier = 0 →
        cfg.read s.readPos = none →
        (runLoop cfg start (fuel + 1) s).ended = EndReason.eos) := by
  intro α cfg start s fuel
  refine ⟨?_, ?_, ?_, ?_⟩
  · intro h0
    unfold play_video
    rw [if_neg (by simp), h0]
  · intro f0 h0
    unfold play_video
    rw [if_neg (by simp), h0]
    rfl
  · intro hmod hr
    rw [iterate_eos cfg start s hmod hr]
    exact ⟨rfl, rfl, rfl⟩
  · intro hlt hmod hr
    simp only [runLoop]
    rw [if_pos hlt, iterate_eos cfg start s hmod hr]
    rfl

/-- Witness for C6: the empty source fails on the first frame; the
one-frame source completes with summary statistics, its first loop
iteration breaking on the failed second decode. -/
theorem decode_failure_semantics_witness :
    play_video c6EmptyCfg true = PlayOutcome.firstFrameError ∧
    (play_video c3Cfg true).isCompleted = true ∧
    (iterate c3Cfg 0 (initState 0)).broke = true ∧
    (runLoop c3Cfg 0 20 (initState 0)).ended = EndReason.eos :=
  ⟨(decode_failure_semantics ℕ c6EmptyCfg 0 (initState 0) 19).1 rfl,
   (decode_failure_semantics ℕ c3Cfg 0 (initState 0) 19).2.1 0 rfl,
   ((decode_failure_semantics ℕ c3Cfg 0 (initState 0) 19).2.2.1 rfl rfl).1,
   (decode_failure_semantics ℕ c3Cfg 0 (initState 0) 19).2.2.2
     (by with_unfolding_all decide) rfl rfl⟩

/-- The invariant forces the buffered frames into temporal order. -/
theorem inv_le {s : PlayState ℕ} (h : FrameOrderInv s) :
    ∀ p c : ℕ, s.prevFrame = some p → s.currentFrame = some c → p ≤ c := by
  intro p c hp hc
  have h1 := h.1 p hp
  have h2 := h.2 c hc
  omega

/-- One loop iteration — including the promotion step at a genuine
index — preserves the frame-ordering invariant. -/
theorem inv_step (cfg : PlayCfg ℕ) (n : ℕ) (hread : cfg.read = idxRead n)
    (start : ℚ) (s : PlayState ℕ) (hs : FrameOrderInv s) :
    FrameOrderInv (iterate cfg start s).next := by
  obtain ⟨hp, hc⟩ := hs
  by_cases hmod : s.frameIndex % cfg.multiplier = 0
  · cases hr : cfg.read s.readPos with
    | none =>
        rw [iterate_eos cfg start s hmod hr]
        constructor
        · intro q hq
          show q < s.readPos + 1
          cases hcur : s.currentFrame with
          | some c =>
              rw [hcur] at hq
              have hcr := hc c hcur
              have : c = q := Option.some.inj hq
              omega
          | none =>
              rw [hcur] at hq
              have := hp q hq
              omega
        · intro c hcq
          exact absurd hcq (by simp)
    | some fr =>
        have hfr : fr = s.readPos := by
          rw [hread] at hr
          unfold idxRead at hr
          split at hr
          · exact (Option.some.inj hr).symm
          · exact absurd hr (by simp)
        rw [iterate_genuine cfg start s hmod fr hr]
        obtain ⟨-, e1, e2, e3, -⟩ := pace_next_fields cfg start _ (some fr)
        constructor
        · intro q hq
          rw [e1] at hq
          rw [e3]
          show q < s.readPos + 1
          cases hcur : s.currentFrame with
          | some c =>
              rw [hcur] at hq
              have hcr := hc c hcur
              have : c = q := Option.some.inj hq
              omega
          | none =>
              rw [hcur] at hq
              have := hp q hq
              omega
        · intro c hcq
          rw [e2] at hcq
          rw [e3]
          have : fr = c := Option.some.inj hcq
          show c + 1 = s.readPos + 1
          omega
  · rw [iterate_interp cfg start s hmod]
    obtain ⟨-, e1, e2, e3, -⟩ := pace_next_fields cfg start s _
    constructor
    · intro q hq
      rw [e1] at hq
      rw [e3]
      exact hp q hq
    · intro c hcq
      rw [e2] at hcq
      rw [e3]
      exact hc c hcq

/-- The frame-ordering invariant holds at the entry of every executed
loop iteration. -/
theorem inv_trace (cfg : PlayCfg ℕ) (n : ℕ) (hread : cfg.read = idxRead n)
    (start : ℚ) :
    ∀ (fuel : ℕ) (s : PlayState ℕ), FrameOrderInv s →
      ∀ t ∈ (runLoop cfg start fuel s).trace, FrameOrderInv t := by
  intro fuel
  induction fuel with
  | zero =>
      intro s hs t ht
      unfold runLoop at ht
      split at ht <;> cases ht
  | succ k ih =>
      intro s hs t ht
      simp only [runLoop] at ht
      split at ht
      · split at ht
        · cases ht with
          | head => exact hs
          | tail _ h => cases h
        · cases ht with
          | head => exact hs
          | tail _ h => exact ih _ (inv_step cfg n hread start s hs) t h
      · cases ht

/-- Claim C9: for the index-carrying instantiation of the loop, at every
point at which both buffered frames are non-null the source index of
`prev_frame` is at most that of `current_frame`; the promotion performed
at a genuine index preserves this invariant, and it holds at the entry
of every executed iteration. -/
theorem frames_in_order :
    ∀ (cfg : PlayCfg ℕ) (n : ℕ), cfg.read = idxRead n →
      ∀ (start : ℚ) (s : PlayState ℕ), FrameOrderInv s →
        FrameOrderInv (iterate cfg start s).next ∧
        ∀ (fuel : ℕ), ∀ t ∈ (runLoop cfg start fuel s).trace,
          ∀ p c : ℕ, t.prevFrame = some p → t.currentFrame = some c →
            p ≤ c :=
  fun cfg n hread start s hs =>
    ⟨inv_step cfg n hread start s hs,
     fun fuel t ht p c hp hc =>
       inv_le (inv_trace cfg n hread start fuel s hs t ht) p c hp hc⟩

/-- Witness for C9 on the eleven-frame run: the invariant is preserved
from the initial state, and at the traced state entering virtual index 1
the buffered source indices 0 and 1 are in order. -/
theorem frames_in_order_witness :
    FrameOrderInv (iterate c5Cfg 0 (initState 0)).next ∧ (0 : ℕ) ≤ 1 := by
  have inv0 : FrameOrderInv (initState (0 : ℕ)) := by
    constructor
    · intro p hp
      injection hp with h
      show p < 1
      omega
    · intro c hc
      cases hc
  have T := frames_in_order c5Cfg 11 rfl 0 (initState 0) inv0
  exact ⟨T.1, T.2 20 c9St (by with_unfolding_all decide) 0 1 rfl rfl⟩

end AsciiPlayer
